import Mathlib

/-!
# Verification of the SpotDown acquisition-and-normalization pipeline

A shallow embedding of `SpotDown.py` in Lean 4.  Pure string manipulation is
translated directly; subprocess invocations (the acquisition tool, the
transcoding engine) and HTTP reads are modelled by explicit oracles — a
function giving each attempt's exit status, and response values passed as
parameters.  The filesystem is modelled as an association list from file
names to contents.
-/

/-! ## Python string primitives -/

/-- Python `needle.isPrefix`-style check at the head of a character list:
`startsWithChars n h` is true when `n` is an initial segment of `h`. -/
def startsWithChars : List Char → List Char → Bool
  | [], _ => true
  | _ :: _, [] => false
  | a :: as, b :: bs => a = b && startsWithChars as bs

/-- Python's substring test `needle in hay` on character lists. -/
def containsSub (needle : List Char) : List Char → Bool
  | [] => needle.isEmpty
  | c :: rest => startsWithChars needle (c :: rest) || containsSub needle rest

/-- Python `needle in hay` on strings. -/
def pyIn (needle hay : String) : Bool :=
  containsSub needle.toList hay.toList

/-- Python `str.lower()` (ASCII case folding, which is all the matcher needs). -/
def pyLower (s : String) : String :=
  String.mk (s.toList.map Char.toLower)

/-- One pass of Python `filename.replace(old, '_')` on a character list. -/
def replace_char (old : Char) (cs : List Char) : List Char :=
  cs.map fun x => if x = old then '_' else x

/-- The invalid-character set of `sanitize_filename`: `'<>:"/\\|?*'`. -/
def invalid_chars : List Char := ['<', '>', ':', '"', '/', '\\', '|', '?', '*']

/-- The loop `for char in invalid_chars: filename = filename.replace(char, '_')`. -/
def replace_invalid (cs : List Char) : List Char :=
  invalid_chars.foldl (fun acc c => replace_char c acc) cs

/-- Membership in the strip set of `filename.strip('. ')`. -/
def isStripChar (c : Char) : Bool := c == '.' || c == ' '

/-- Python `s.strip('. ')`: remove leading and trailing dots and spaces. -/
def py_strip_dot_space (cs : List Char) : List Char :=
  ((cs.dropWhile isStripChar).reverse.dropWhile isStripChar).reverse

/-- Definition `sanitize_filename` from SpotDown.py: replace each character of
`'<>:"/\\|?*'` with `'_'`, then `strip('. ')`, then truncate to 200
characters (`[:200]`). -/
def sanitize_filename (filename : String) : String :=
  String.mk ((py_strip_dot_space (replace_invalid filename.toList)).take 200)

/-- Python `str.zfill`: left-pad with `'0'` to the requested width. -/
def zfill (s : String) (width : Nat) : String :=
  String.mk (List.replicate (width - s.toList.length) '0' ++ s.toList)

/-! ## Data model -/

/-- A track record as produced by the metadata fetchers: the dict
`{"number": ..., "title": ..., "artists": ..., "album": ...}`. -/
structure Track where
  number : Nat
  title : String
  artists : String
  album : String
deriving DecidableEq, Repr

/-- Collection metadata as returned by the fetchers: the dict
`{"artist": ..., "album": ..., "tracks": ..., "image_url": ...}`. -/
structure Metadata where
  artist : String
  album : String
  tracks : List Track
  image_url : Option String
deriving DecidableEq, Repr

/-- An audio file discovered in the download folder, identified by the
stem (`Path.stem`) used for title matching. -/
structure FileEntry where
  stem : String
deriving DecidableEq, Repr

/-! ## Track matcher (the matching loop of `convert_to_aac_parallel`) -/

/-- The matching test `track["title"].lower() in f.stem.lower()`. -/
def titleMatches (track : Track) (f : FileEntry) : Bool :=
  pyIn (pyLower track.title) (pyLower f.stem)

/-- The matching loop of `convert_to_aac_parallel`: for each track in order,
scan all files in order and append the first whose stem contains the title
(`break` after the first hit); a track with no hit contributes nothing. -/
def convert_matched (files : List FileEntry) (track_list : List Track) :
    List (FileEntry × Track) :=
  track_list.foldl
    (fun matched track =>
      match files.find? (titleMatches track) with
      | some f => matched ++ [(f, track)]
      | none => matched)
    []

/-- The width `pad_digits = len(str(len(track_list)))` from `convert_to_aac_parallel`. -/
def pad_digits (track_list : List Track) : Nat :=
  (Nat.repr track_list.length).toList.length

/-- The output file name built in `embed_metadata`:
`f"{track_number_str} - {safe_title}.m4a"`. -/
def output_file_name (track : Track) (pad : Nat) : String :=
  zfill (Nat.repr track.number) pad ++ " - " ++ sanitize_filename track.title ++ ".m4a"

/-! ## Basic lemmas about the matcher -/

/-- Rewriting `convert_matched` as a `filterMap`: each track contributes the first
matching file, or nothing. -/
theorem convert_matched_eq_filterMap (files : List FileEntry) (track_list : List Track) :
    convert_matched files track_list
      = track_list.filterMap fun t => (files.find? (titleMatches t)).map fun f => (f, t) := by
  suffices h : ∀ (ts : List Track) (acc : List (FileEntry × Track)),
      ts.foldl
        (fun matched track =>
          match files.find? (titleMatches track) with
          | some f => matched ++ [(f, track)]
          | none => matched) acc
        = acc ++ ts.filterMap fun t => (files.find? (titleMatches t)).map fun f => (f, t) by
    simpa [convert_matched] using h track_list []
  intro ts
  induction ts with
  | nil => simp
  | cons t ts ih =>
    intro acc
    cases hf : files.find? (titleMatches t) with
    | none => simp [List.foldl_cons, hf, ih]
    | some f => simp [List.foldl_cons, hf, ih]

/-- The sequence of matched tracks is a sublist of the input track list. -/
theorem convert_matched_tracks_sublist (files : List FileEntry) (track_list : List Track) :
    ((convert_matched files track_list).map Prod.snd).Sublist track_list := by
  rw [convert_matched_eq_filterMap]
  induction track_list with
  | nil => simp
  | cons t ts ih =>
    cases hf : files.find? (titleMatches t) with
    | none =>
      simpa [List.filterMap_cons, hf] using ih.cons t
    | some f =>
      simpa [List.filterMap_cons, hf] using ih.cons₂ t

/-! ## Acquisition orchestrator (`run_spotdl_download`, with fallback)

Each invocation of the external acquisition tool is abstracted by an oracle
`succeeds : Nat → Bool` giving the attempt's outcome by attempt number; the
trace records the attempt numbers made, the backoff sleeps performed, and
the returned folder (`none` = all attempts failed). -/

def PREFERRED_FORMAT : String := "flac"
def FALLBACK_FORMAT : String := "mp3"

/-- Trace of one `run_spotdl_download` call. -/
structure DLTrace where
  attempts : List Nat
  sleeps : List Nat
  result : Option String
deriving DecidableEq, Repr

/-- The loop `for attempt in range(1, retries + 2)` of `run_spotdl_download`:
on success return the target folder; on failure sleep `2 ** attempt` and
continue; after the last failure fall through to `return None`. -/
def dlLoop (succeeds : Nat → Bool) (target : String) : Nat → Nat → DLTrace
  | 0, _ => ⟨[], [], none⟩
  | fuel + 1, attempt =>
    if succeeds attempt then ⟨[attempt], [], some target⟩
    else
      let t := dlLoop succeeds target fuel (attempt + 1)
      ⟨attempt :: t.attempts, 2 ^ attempt :: t.sleeps, t.result⟩

/-- Model of `run_spotdl_download(url, artist, album, fmt, bitrate, retries)`: the
target folder is `sanitize_filename(f"{artist} - {album}")` under the base
directory, and the loop runs attempts `1 .. retries + 1`. -/
def run_spotdl_download (succeeds : Nat → Bool) (artist album : String) (retries : Nat) :
    DLTrace :=
  dlLoop succeeds (sanitize_filename (artist ++ " - " ++ album)) (retries + 1) 1

/-- Result of `run_spotdl_download_with_fallback`: the preferred-format
trace, the fallback trace when the fallback was attempted at all, and the
returned `(folder, fmt)` pair. -/
structure FallbackRun where
  prefTrace : DLTrace
  fbTrace : Option DLTrace
  folder : Option String
  fmt : String
deriving DecidableEq, Repr

/-- Model of `run_spotdl_download_with_fallback(url, artist, album)`: try the
preferred format (default `retries = 2`); if it returns a folder, return it
with the preferred label, otherwise run the fallback format and return its
outcome with the fallback label. -/
def run_spotdl_download_with_fallback (sp sf : Nat → Bool) (artist album : String) :
    FallbackRun :=
  let t := run_spotdl_download sp artist album 2
  match t.result with
  | some folder => ⟨t, none, some folder, PREFERRED_FORMAT⟩
  | none =>
    let t2 := run_spotdl_download sf artist album 2
    ⟨t, some t2, t2.result, FALLBACK_FORMAT⟩

/-! ### Lemmas about the download loop -/

/-- When every attempt in the window fails, the loop makes every attempt
in order, sleeps `2 ^ attempt` after each, and returns no folder. -/
theorem dlLoop_all_fail (succeeds : Nat → Bool) (target : String) :
    ∀ (fuel start : Nat), (∀ k, start ≤ k → k < start + fuel → succeeds k = false) →
      dlLoop succeeds target fuel start
        = ⟨List.range' start fuel, (List.range' start fuel).map (fun a => 2 ^ a), none⟩ := by
  intro fuel
  induction fuel with
  | zero => intro start _; simp [dlLoop]
  | succ n ih =>
    intro start h
    have hs : succeeds start = false := h start (Nat.le_refl start) (by omega)
    have ht := ih (start + 1) (fun k hk1 hk2 => h k (by omega) (by omega))
    simp [dlLoop, hs, ht, List.range'_succ]

/-- The loop returns the target folder as soon as some attempt in the
window succeeds. -/
theorem dlLoop_result_of_success (succeeds : Nat → Bool) (target : String) :
    ∀ (fuel start : Nat), (∃ k, start ≤ k ∧ k < start + fuel ∧ succeeds k = true) →
      (dlLoop succeeds target fuel start).result = some target := by
  intro fuel
  induction fuel with
  | zero => rintro start ⟨k, h1, h2, _⟩; omega
  | succ n ih =>
    rintro start ⟨k, h1, h2, h3⟩
    by_cases hs : succeeds start = true
    · simp [dlLoop, hs]
    · have hk : start + 1 ≤ k := by
        rcases Nat.lt_or_ge start k with h | h
        · omega
        · have : k = start := by omega
          subst this; simp [h3] at hs
      have := ih (start + 1) ⟨k, hk, by omega, h3⟩
      simp only [Bool.not_eq_true] at hs
      simp [dlLoop, hs, this]

/-- If no folder is returned, every attempt in the window was made (and the
last recorded attempt is the final one). -/
theorem dlLoop_none_attempts (succeeds : Nat → Bool) (target : String) :
    ∀ (fuel start : Nat), (dlLoop succeeds target fuel start).result = none →
      (dlLoop succeeds target fuel start).attempts = List.range' start fuel := by
  intro fuel
  induction fuel with
  | zero => intro start _; simp [dlLoop]
  | succ n ih =>
    intro start h
    by_cases hs : succeeds start = true
    · simp [dlLoop, hs] at h
    · simp only [Bool.not_eq_true] at hs
      simp only [dlLoop, hs, Bool.false_eq_true, if_false] at h ⊢
      simp only [List.range'_succ, List.cons.injEq, true_and]
      exact ih (start + 1) h

/-! ## Post-processor (`embed_metadata`, `convert_to_aac_parallel`)

The filesystem is an association list from file names to contents (an
opaque `Nat` token); the transcoding engine's exit code is an oracle. -/

/-- A filesystem: file name with its content token. -/
abbrev Disk := List (String × Nat)

/-- Look up a file's content by name. -/
def lookupFile (disk : Disk) (name : String) : Option Nat :=
  (disk.find? fun e => e.1 == name).map fun e => e.2

/-- Python `Path.unlink(missing_ok=True)`: remove the named file if present. -/
def deleteFile (disk : Disk) (name : String) : Disk :=
  disk.filter fun e => e.1 != name

/-- Write a file (overwriting any previous file of that name). -/
def writeFile (disk : Disk) (name : String) (content : Nat) : Disk :=
  deleteFile disk name ++ [(name, content)]

/-- Model of `embed_metadata(file_path, track_info, album_art, pad_digits)`: invoke
the transcoding engine; on exit code `0` the output file exists and the
original is unlinked, and the output name is returned; on non-zero exit
nothing changes and `None` is returned. -/
def embed_metadata (returncode : Nat) (newContent : Nat) (disk : Disk)
    (file_path : String) (track : Track) (pad : Nat) : Disk × Option String :=
  let output_file := output_file_name track pad
  if returncode = 0 then
    (deleteFile (writeFile disk output_file newContent) file_path, some output_file)
  else
    (disk, none)

/-- The per-pair processing of `convert_to_aac_parallel`'s executor:
process the enumerated matched pairs in order, threading the disk, and
collect each pair's returned output name. `exits i` is the transcoding
exit code for pair `i` and `fileName` recovers a pair's input path. -/
def run_pairs (exits newContent : Nat → Nat) (pad : Nat) (fileName : FileEntry → String) :
    Disk → List (Nat × (FileEntry × Track)) → Disk × List (Option String)
  | disk, [] => (disk, [])
  | disk, (i, (f, t)) :: rest =>
    let r := embed_metadata (exits i) (newContent i) disk (fileName f) t pad
    let rr := run_pairs exits newContent pad fileName r.1 rest
    (rr.1, r.2 :: rr.2)

/-- Model of `convert_to_aac_parallel(folder, track_list, ...)`: match files to
tracks, process every matched pair, and count the pairs that returned an
output file (`if output_file: converted += 1`). -/
def convert_to_aac_parallel (exits newContent : Nat → Nat) (disk : Disk)
    (fileName : FileEntry → String) (files : List FileEntry) (track_list : List Track) :
    Disk × Nat :=
  let matched := convert_matched files track_list
  let r := run_pairs exits newContent (pad_digits track_list) fileName disk matched.enum
  (r.1, (r.2.filter Option.isSome).length)

/-- The success count equals the number of matched pairs whose transcoding
exit code is `0`, independent of the other pairs' outcomes. -/
theorem convert_count_eq (exits newContent : Nat → Nat) (disk : Disk)
    (fileName : FileEntry → String) (files : List FileEntry) (track_list : List Track) :
    (convert_to_aac_parallel exits newContent disk fileName files track_list).2
      = ((convert_matched files track_list).enum.filter fun p => exits p.1 == 0).length := by
  suffices h : ∀ (ps : List (Nat × (FileEntry × Track))) (d : Disk),
      (((run_pairs exits newContent (pad_digits track_list) fileName d ps).2.filter
        Option.isSome).length)
        = (ps.filter fun p => exits p.1 == 0).length by
    simpa [convert_to_aac_parallel] using
      h (convert_matched files track_list).enum disk
  intro ps
  induction ps with
  | nil => intro d; simp [run_pairs]
  | cons p rest ih =>
    intro d
    obtain ⟨i, f, t⟩ := p
    by_cases hz : exits i = 0
    · simp [run_pairs, embed_metadata, hz, ih, List.filter_cons]
    · simp [run_pairs, embed_metadata, hz, ih, List.filter_cons]

/-! ## Metadata resolvers -/

/-- Python `", ".join(a["name"] for a in artists)`. -/
def joinArtists (xs : List String) : String := String.intercalate ", " xs

/-- A raw track object inside a playlist response (`item["track"]`). -/
structure RawTrack where
  name : String
  artists : List String
deriving DecidableEq, Repr

/-- The playlist response fields that `get_playlist_metadata` reads:
`data["name"]`, `data["owner"]["display_name"]`, `data["tracks"]["items"]`
(each item's `track` is `none` when the underlying track was removed), and
`data["images"]` (a list of artwork URLs). -/
structure PlaylistResponse where
  name : String
  owner_display_name : String
  items : List (Option RawTrack)
  images : List String
deriving DecidableEq, Repr

/-- The loop `for idx, item in enumerate(data["tracks"]["items"], start=1)`:
a present track is appended with `number := idx` (the position in the
original items enumeration); a `None` track is skipped but still advances
`idx`. -/
def playlistTracks (albumName : String) : Nat → List (Option RawTrack) → List Track
  | _, [] => []
  | idx, none :: rest => playlistTracks albumName (idx + 1) rest
  | idx, some t :: rest =>
    ⟨idx, t.name, joinArtists t.artists, albumName⟩ :: playlistTracks albumName (idx + 1) rest

/-- Model of `get_playlist_metadata` projected from the playlist response. -/
def get_playlist_metadata (resp : PlaylistResponse) : Metadata :=
  { artist := resp.owner_display_name
    album := resp.name
    tracks := playlistTracks resp.name 1 resp.items
    image_url := resp.images.head? }

/-- A liked-songs item's track object: `t["name"]`, `t["artists"]`,
`t["album"]["name"]`. -/
structure RawLikedTrack where
  name : String
  artists : List String
  albumName : String
deriving DecidableEq, Repr

/-- Modelled from the spec: the single catalog read
`GET /v1/me/tracks?limit=50` — the one request `get_liked_songs_metadata`
issues — returns at most the requested page limit of 50 items (the first
page of the user's liked tracks); the function performs no pagination. -/
def likedSongsResponse (allLiked : List RawLikedTrack) : List RawLikedTrack :=
  allLiked.take 50

/-- The loop `for idx, item in enumerate(data["items"], start=1)` of
`get_liked_songs_metadata`. -/
def likedTracks : Nat → List RawLikedTrack → List Track
  | _, [] => []
  | idx, t :: rest => ⟨idx, t.name, joinArtists t.artists, t.albumName⟩ :: likedTracks (idx + 1) rest

/-- Model of `get_liked_songs_metadata`, applied to the user's full liked list; the
response is the single 50-limited page. -/
def get_liked_songs_metadata (allLiked : List RawLikedTrack) : Metadata :=
  { artist := "Liked Songs"
    album := "Spotify Liked Songs"
    tracks := likedTracks 1 (likedSongsResponse allLiked)
    image_url := none }

/-! ## URL recognition (`extract_spotify_id_and_type`) -/

/-- Strip a literal prefix from a character list, or fail. -/
def dropLit : List Char → List Char → Option (List Char)
  | [], cs => some cs
  | _ :: _, [] => none
  | a :: as, c :: cs => if a = c then dropLit as cs else none

/-- Try to match the regex
`https?://open\.spotify\.com/(album|playlist|track)/([a-zA-Z0-9]+)`
anchored at the head of the character list, returning
`(content type, spotify id)`. -/
def spotifyMatchAt (cs : List Char) : Option (String × String) :=
  match dropLit "http".toList cs with
  | none => none
  | some rest =>
    let afterScheme :=
      match dropLit "s://open.spotify.com/".toList rest with
      | some r => some r
      | none => dropLit "://open.spotify.com/".toList rest
    match afterScheme with
    | none => none
    | some r =>
      let tryKind := fun (ty : String) =>
        (dropLit (ty.toList ++ ['/']) r).map fun after => (ty, after)
      match tryKind "album" <|> tryKind "playlist" <|> tryKind "track" with
      | none => none
      | some (ty, after) =>
        let idChars := after.takeWhile Char.isAlphanum
        if idChars.isEmpty then none else some (ty, String.mk idChars)

/-- Python `re.search`: try the pattern at each start position, left to right. -/
def reSearchSpotify : List Char → Option (String × String)
  | [] => none
  | c :: rest =>
    match spotifyMatchAt (c :: rest) with
    | some r => some r
    | none => reSearchSpotify rest

/-- Model of `extract_spotify_id_and_type(url)`: the special `liked-songs` substring
case, else the regex search; returns `(spotify_id, content_type)` like the
Python `(match.group(2), match.group(1))`, and `none` for the Python
`(None, None)`. -/
def extract_spotify_id_and_type (url : String) : Option (String × String) :=
  if pyIn "liked-songs" url then some ("liked", "liked")
  else (reSearchSpotify url.toList).map fun p => (p.2, p.1)

/-- Model of `get_metadata_from_url(url)`: dispatch on the recognized content type.
The four catalog fetchers are oracles mapping a spotify id to the metadata
their HTTP read produces; an unrecognized URL yields the empty dict,
modelled as `none`. -/
def get_metadata_from_url (fetchAlbum fetchTrack fetchPlaylist : String → Metadata)
    (likedMd : Metadata) (url : String) : Option Metadata :=
  match extract_spotify_id_and_type url with
  | none => none
  | some (spotifyId, contentType) =>
    if contentType = "album" then some (fetchAlbum spotifyId)
    else if contentType = "track" then some (fetchTrack spotifyId)
    else if contentType = "playlist" then some (fetchPlaylist spotifyId)
    else if contentType = "liked" then some likedMd
    else none

/-! ## Run log and top-level orchestration (`download_spotify_url`) -/

/-- One line of the run log, as written by `log_download`. -/
structure LogEntry where
  artist : String
  album : String
  num_songs : Nat
  fmt : String
  status : String
deriving DecidableEq, Repr

/-- Model of `log_download(artist, album, num_songs, fmt)` with the default
`status="SUCCESS"`. -/
def log_download (artist album : String) (num_songs : Nat) (fmt : String) : LogEntry :=
  ⟨artist, album, num_songs, fmt, "SUCCESS"⟩

/-- Observable outcome of one `download_spotify_url` run: the log lines
appended, and the attempt numbers issued to the acquisition tool in the
preferred and fallback formats. -/
structure RunOutcome where
  log : List LogEntry
  prefAttempts : List Nat
  fbAttempts : List Nat
deriving DecidableEq, Repr

/-- The fallback attempts recorded in a `FallbackRun`. -/
def fbAttemptsOf (r : FallbackRun) : List Nat :=
  match r.fbTrace with
  | none => []
  | some t => t.attempts

/-- Model of `download_spotify_url(url)`: resolve metadata (abort silently on the
empty dict), acquire with fallback (abort silently when no folder is
returned), convert, and append one log line only when the converted count
is positive. -/
def download_spotify_url (fetchAlbum fetchTrack fetchPlaylist : String → Metadata)
    (likedMd : Metadata) (sp sf : Nat → Bool) (exits newContent : Nat → Nat)
    (disk : Disk) (fileName : FileEntry → String) (files : List FileEntry)
    (url : String) : RunOutcome :=
  match get_metadata_from_url fetchAlbum fetchTrack fetchPlaylist likedMd url with
  | none => ⟨[], [], []⟩
  | some md =>
    let r := run_spotdl_download_with_fallback sp sf md.artist md.album
    match r.folder with
    | none => ⟨[], r.prefTrace.attempts, fbAttemptsOf r⟩
    | some _ =>
      let num := (convert_to_aac_parallel exits newContent disk fileName files md.tracks).2
      if 0 < num then
        ⟨[log_download md.artist md.album num ("AAC M4A (from " ++ r.fmt ++ ")")],
          r.prefTrace.attempts, fbAttemptsOf r⟩
      else ⟨[], r.prefTrace.attempts, fbAttemptsOf r⟩

/-! ## Helper lemmas for the claims -/

/-- Membership in the matcher output: the pair's file is the first file
matching the pair's track. -/
theorem convert_matched_mem (files : List FileEntry) (track_list : List Track)
    (p : FileEntry × Track) (hp : p ∈ convert_matched files track_list) :
    p.2 ∈ track_list ∧ p.1 ∈ files ∧ titleMatches p.2 p.1 = true := by
  rw [convert_matched_eq_filterMap] at hp
  obtain ⟨t, ht, he⟩ := List.mem_filterMap.mp hp
  cases hf : files.find? (titleMatches t) with
  | none => rw [hf] at he; simp at he
  | some f =>
    rw [hf] at he
    simp only [Option.map_some'] at he
    obtain ⟨rfl⟩ := he.symm
    exact ⟨ht, List.mem_of_find?_eq_some hf, List.find?_some hf⟩

/-- The playlist loop records the 1-based index in the original items
enumeration, skipping absent tracks without renumbering. -/
theorem playlistTracks_numbers (albumName : String) :
    ∀ (items : List (Option RawTrack)) (start : Nat),
      (playlistTracks albumName start items).map Track.number
        = (List.enumFrom start items).filterMap
            fun p => if p.2.isSome then some p.1 else none := by
  intro items
  induction items with
  | nil => intro start; simp [playlistTracks]
  | cons o rest ih =>
    intro start
    cases o with
    | none => simp [playlistTracks, List.enumFrom_cons, ih]
    | some t => simp [playlistTracks, List.enumFrom_cons, ih]

/-- The playlist loop keeps exactly the present tracks. -/
theorem playlistTracks_length (albumName : String) :
    ∀ (items : List (Option RawTrack)) (start : Nat),
      (playlistTracks albumName start items).length
        = items.countP fun o => o.isSome := by
  intro items
  induction items with
  | nil => intro start; simp [playlistTracks]
  | cons o rest ih =>
    intro start
    cases o with
    | none => simp [playlistTracks, List.countP_cons, ih]
    | some t => simp [playlistTracks, List.countP_cons, ih]

/-- The liked-songs loop keeps every item of the page. -/
theorem likedTracks_length :
    ∀ (items : List RawLikedTrack) (start : Nat),
      (likedTracks start items).length = items.length := by
  intro items
  induction items with
  | nil => intro start; rfl
  | cons t rest ih => intro start; simp [likedTracks, ih]

/-! ## Claims -/

/-- Claim C1 (corrected claim, counterexample): the matching loop of
`convert_to_aac_parallel` can assign the same file to two different
tracks: with one file of stem `"abc"` and two distinct tracks titled
`"a"` and `"b"`, both tracks claim that one file. -/
theorem C1_counterexample :
    convert_matched [⟨"abc"⟩] [⟨1, "a", "X", "Y"⟩, ⟨2, "b", "X", "Y"⟩]
        = [(⟨"abc"⟩, ⟨1, "a", "X", "Y"⟩), (⟨"abc"⟩, ⟨2, "b", "X", "Y"⟩)]
      ∧ (⟨1, "a", "X", "Y"⟩ : Track) ≠ ⟨2, "b", "X", "Y"⟩ := by
  decide

/-- Claim C1 (amended): the Track Matcher assigns at most one file to each
track (the matched track sequence is a sublist of the track list, so on a
duplicate-free track list no track receives two files); a track whose
title matches no file is simply absent from the output with no error; and
every emitted pair really matches — but a file already claimed by an
earlier track may be claimed again by a later one. -/
theorem C1_matcher_amended (files : List FileEntry) (track_list : List Track) :
    ((convert_matched files track_list).map Prod.snd).Sublist track_list
  ∧ (track_list.Nodup → ((convert_matched files track_list).map Prod.snd).Nodup)
  ∧ (∀ t ∈ track_list, (∀ f ∈ files, titleMatches t f = false) →
      ∀ p ∈ convert_matched files track_list, p.2 ≠ t)
  ∧ (∀ p ∈ convert_matched files track_list, titleMatches p.2 p.1 = true) := by
  refine ⟨convert_matched_tracks_sublist files track_list,
    fun hnd => (convert_matched_tracks_sublist files track_list).nodup hnd,
    ?_, fun p hp => (convert_matched_mem files track_list p hp).2.2⟩
  intro t _ hno p hp he
  obtain ⟨_, hf, hm⟩ := convert_matched_mem files track_list p hp
  rw [he] at hm
  rw [hno p.1 hf] at hm
  exact Bool.false_ne_true hm

/-- Claim C1 witness: a concrete instantiation of the amended theorem. -/
theorem C1_matcher_amended_witness :
    ((convert_matched [⟨"xyz"⟩] [⟨1, "x", "A", "B"⟩]).map Prod.snd).Sublist
      [⟨1, "x", "A", "B"⟩] :=
  (C1_matcher_amended [⟨"xyz"⟩] [⟨1, "x", "A", "B"⟩]).1

/-- Claim C2 (corrected claim, counterexample): with one removed entry
followed by one present track, `get_playlist_metadata` numbers the single
included track `2` — its original playlist slot — not `1`, so the position
sequence is not `1, ..., n`. -/
theorem C2_counterexample :
    ((get_playlist_metadata ⟨"P", "O", [none, some ⟨"song", ["X"]⟩], []⟩).tracks).map
        Track.number = [2]
      ∧ ((get_playlist_metadata ⟨"P", "O", [none, some ⟨"song", ["X"]⟩], []⟩).tracks).length = 1
      ∧ [2] ≠ [1] := by
  decide

/-- Claim C2 (amended): `get_playlist_metadata` skips entries whose
underlying track is removed (the output has exactly as many tracks as
present entries), and each included track's position is its 1-based index
in the *original* playlist enumeration, so skipped entries leave gaps in
the position sequence. -/
theorem C2_playlist_positions_amended (resp : PlaylistResponse) :
    ((get_playlist_metadata resp).tracks).map Track.number
        = ((List.enumFrom 1 resp.items).filterMap
            fun p => if p.2.isSome then some p.1 else none)
      ∧ ((get_playlist_metadata resp).tracks).length
        = resp.items.countP fun o => o.isSome := by
  exact ⟨playlistTracks_numbers resp.name resp.items 1,
    playlistTracks_length resp.name resp.items 1⟩

/-- Claim C9: the liked-songs resolver returns at most 50 tracks — exactly
`min 50` of the user's liked tracks, from a single 50-limited page with no
pagination — and its artwork reference is always `none`. -/
theorem C9_liked_songs_limit (allLiked : List RawLikedTrack) :
    (get_liked_songs_metadata allLiked).tracks.length = min 50 allLiked.length
      ∧ (get_liked_songs_metadata allLiked).tracks.length ≤ 50
      ∧ (get_liked_songs_metadata allLiked).image_url = none := by
  have h : (get_liked_songs_metadata allLiked).tracks.length = min 50 allLiked.length := by
    simp [get_liked_songs_metadata, likedTracks_length, likedSongsResponse]
  exact ⟨h, by rw [h]; exact Nat.min_le_left 50 allLiked.length, rfl⟩

/-- Adjacent powers of two along `range'` are strictly increasing. -/
theorem pow2_range'_chain :
    ∀ (n s : Nat), List.Chain' (fun a b => a < b) ((List.range' s n).map fun a => 2 ^ a) := by
  intro n
  induction n with
  | zero => intro s; simp
  | succ m ih =>
    intro s
    rw [List.range'_succ, List.map_cons]
    rcases m with _ | k
    · simp
    · rw [List.range'_succ, List.map_cons]
      refine List.chain'_cons.mpr ⟨Nat.pow_lt_pow_right (by norm_num) (by omega), ?_⟩
      rw [← List.map_cons, ← List.range'_succ]
      exact ih (s + 1)

/-- Claim C3: when all attempts fail, `run_spotdl_download` makes exactly
`retries + 1` attempts (numbers `1 .. retries + 1`), sleeps `2 ^ attempt`
after each failed attempt (strictly increasing delays), returns no folder,
and `run_spotdl_download_with_fallback` runs the fallback only after its
preferred call made all `2 + 1` attempts without a folder. -/
theorem C3_retry_backoff (succeeds : Nat → Bool) (retries : Nat) (artist album : String)
    (hfail : ∀ k, 1 ≤ k → k ≤ retries + 1 → succeeds k = false) :
    (run_spotdl_download succeeds artist album retries).attempts = List.range' 1 (retries + 1)
  ∧ (run_spotdl_download succeeds artist album retries).sleeps
      = ((List.range' 1 (retries + 1)).map fun a => 2 ^ a)
  ∧ (run_spotdl_download succeeds artist album retries).result = none
  ∧ List.Chain' (fun a b => a < b) (run_spotdl_download succeeds artist album retries).sleeps
  ∧ ∀ sp sf : Nat → Bool,
      (run_spotdl_download_with_fallback sp sf artist album).fbTrace ≠ none →
        (run_spotdl_download_with_fallback sp sf artist album).prefTrace.attempts
            = List.range' 1 3
      ∧ (run_spotdl_download_with_fallback sp sf artist album).prefTrace.result = none := by
  have hall := dlLoop_all_fail succeeds (sanitize_filename (artist ++ " - " ++ album))
    (retries + 1) 1 (fun k h1 h2 => hfail k h1 (by omega))
  refine ⟨?_, ?_, ?_, ?_, ?_⟩
  · rw [run_spotdl_download, hall]
  · rw [run_spotdl_download, hall]
  · rw [run_spotdl_download, hall]
  · rw [run_spotdl_download, hall]
    exact pow2_range'_chain (retries + 1) 1
  · intro sp sf hfb
    cases ht : (run_spotdl_download sp artist album 2).result with
    | some folder =>
      exfalso
      apply hfb
      simp [run_spotdl_download_with_fallback, ht]
    | none =>
      constructor
      · show (run_spotdl_download_with_fallback sp sf artist album).prefTrace.attempts = _
        have hpref : (run_spotdl_download_with_fallback sp sf artist album).prefTrace
            = run_spotdl_download sp artist album 2 := by
          simp [run_spotdl_download_with_fallback, ht]
        rw [hpref, run_spotdl_download]
        exact dlLoop_none_attempts sp _ 3 1 ht
      · have hpref : (run_spotdl_download_with_fallback sp sf artist album).prefTrace
            = run_spotdl_download sp artist album 2 := by
          simp [run_spotdl_download_with_fallback, ht]
        rw [hpref]
        exact ht

/-- Claim C3 witness: two attempts (`retries = 1`) when every attempt fails. -/
theorem C3_retry_backoff_witness :
    (run_spotdl_download (fun _ => false) "Artist" "Album" 1).attempts = List.range' 1 2 :=
  (C3_retry_backoff (fun _ => false) 1 "Artist" "Album" (fun _ _ _ => rfl)).1

/-- Claim C4: `run_spotdl_download_with_fallback` returns the target
directory with the label of the format that actually succeeded — the
preferred label when some preferred attempt succeeds, the fallback label
when the preferred format is exhausted and a fallback attempt succeeds —
and no directory when both formats exhaust all three attempts. -/
theorem C4_fallback_format (sp sf : Nat → Bool) (artist album : String) :
    ((∃ k, 1 ≤ k ∧ k ≤ 3 ∧ sp k = true) →
        (run_spotdl_download_with_fallback sp sf artist album).folder
            = some (sanitize_filename (artist ++ " - " ++ album))
      ∧ (run_spotdl_download_with_fallback sp sf artist album).fmt = PREFERRED_FORMAT)
  ∧ ((∀ k, 1 ≤ k → k ≤ 3 → sp k = false) → (∃ k, 1 ≤ k ∧ k ≤ 3 ∧ sf k = true) →
        (run_spotdl_download_with_fallback sp sf artist album).folder
            = some (sanitize_filename (artist ++ " - " ++ album))
      ∧ (run_spotdl_download_with_fallback sp sf artist album).fmt = FALLBACK_FORMAT)
  ∧ ((∀ k, 1 ≤ k → k ≤ 3 → sp k = false) → (∀ k, 1 ≤ k → k ≤ 3 → sf k = false) →
        (run_spotdl_download_with_fallback sp sf artist album).folder = none) := by
  refine ⟨?_, ?_, ?_⟩
  · rintro ⟨k, h1, h2, h3⟩
    have hres : (run_spotdl_download sp artist album 2).result
        = some (sanitize_filename (artist ++ " - " ++ album)) :=
      dlLoop_result_of_success sp _ 3 1 ⟨k, h1, by omega, h3⟩
    constructor <;> simp [run_spotdl_download_with_fallback, hres]
  · intro hp ⟨k, h1, h2, h3⟩
    have hpres : (run_spotdl_download sp artist album 2).result = none := by
      rw [run_spotdl_download,
        dlLoop_all_fail sp _ 3 1 (fun j hj1 hj2 => hp j hj1 (by omega))]
    have hfres : (run_spotdl_download sf artist album 2).result
        = some (sanitize_filename (artist ++ " - " ++ album)) :=
      dlLoop_result_of_success sf _ 3 1 ⟨k, h1, by omega, h3⟩
    constructor <;> simp [run_spotdl_download_with_fallback, hpres, hfres]
  · intro hp hf
    have hpres : (run_spotdl_download sp artist album 2).result = none := by
      rw [run_spotdl_download,
        dlLoop_all_fail sp _ 3 1 (fun j hj1 hj2 => hp j hj1 (by omega))]
    have hfres : (run_spotdl_download sf artist album 2).result = none := by
      rw [run_spotdl_download,
        dlLoop_all_fail sf _ 3 1 (fun j hj1 hj2 => hf j hj1 (by omega))]
    simp [run_spotdl_download_with_fallback, hpres, hfres]

/-- Claim C4 witness: preferred format succeeding on its first attempt. -/
theorem C4_fallback_format_witness :
    (run_spotdl_download_with_fallback (fun _ => true) (fun _ => false) "A" "B").folder
        = some (sanitize_filename ("A" ++ " - " ++ "B"))
  ∧ (run_spotdl_download_with_fallback (fun _ => true) (fun _ => false) "A" "B").fmt
        = PREFERRED_FORMAT :=
  (C4_fallback_format (fun _ => true) (fun _ => false) "A" "B").1 ⟨1, by omega, by omega, rfl⟩

/-- Deleting a file really removes it from the association list. -/
theorem lookupFile_deleteFile_self (d : Disk) (name : String) :
    lookupFile (deleteFile d name) name = none := by
  induction d with
  | nil => rfl
  | cons e rest ih =>
    by_cases he : e.1 == name
    · simpa [deleteFile, List.filter_cons, bne, he] using ih
    · simp only [Bool.not_eq_true] at he
      simp [deleteFile, lookupFile, List.filter_cons, bne, he] at ih ⊢

/-- Claim C5: per matched pair, a zero transcoding exit deletes the original
input and reports the output name; a non-zero exit leaves the disk — in
particular the original input — untouched and reports `none` without
raising; and the aggregate count of `convert_to_aac_parallel` is exactly
the number of pairs whose exit is zero, whatever the sibling pairs do. -/
theorem C5_embed_outcome (returncode newContent c : Nat) (disk : Disk) (file_path : String)
    (track : Track) (pad : Nat) (hin : lookupFile disk file_path = some c) :
    (returncode = 0 →
        lookupFile (embed_metadata returncode newContent disk file_path track pad).1 file_path
            = none
      ∧ (embed_metadata returncode newContent disk file_path track pad).2
            = some (output_file_name track pad))
  ∧ (returncode ≠ 0 →
        (embed_metadata returncode newContent disk file_path track pad).1 = disk
      ∧ lookupFile (embed_metadata returncode newContent disk file_path track pad).1 file_path
            = some c
      ∧ (embed_metadata returncode newContent disk file_path track pad).2 = none)
  ∧ ∀ (exits newC : Nat → Nat) (d : Disk) (fn : FileEntry → String)
      (files : List FileEntry) (tracks : List Track),
      (convert_to_aac_parallel exits newC d fn files tracks).2
        = ((convert_matched files tracks).enum.filter fun p => exits p.1 == 0).length := by
  refine ⟨?_, ?_, fun exits newC d fn files tracks => convert_count_eq exits newC d fn files tracks⟩
  · intro hz
    constructor
    · simp only [embed_metadata, hz, if_pos]
      exact lookupFile_deleteFile_self _ file_path
    · simp [embed_metadata, hz]
  · intro hnz
    refine ⟨by simp [embed_metadata, hnz], ?_, by simp [embed_metadata, hnz]⟩
    simpa [embed_metadata, hnz] using hin

/-- Claim C5 witness: a concrete failing pair leaves the input in place. -/
theorem C5_embed_outcome_witness :
    (embed_metadata 1 7 [("song.flac", 5)] "song.flac" ⟨1, "t", "a", "b"⟩ 2).1
        = [("song.flac", 5)]
  ∧ lookupFile (embed_metadata 1 7 [("song.flac", 5)] "song.flac" ⟨1, "t", "a", "b"⟩ 2).1
        "song.flac" = some 5
  ∧ (embed_metadata 1 7 [("song.flac", 5)] "song.flac" ⟨1, "t", "a", "b"⟩ 2).2 = none :=
  (C5_embed_outcome 1 7 5 [("song.flac", 5)] "song.flac" ⟨1, "t", "a", "b"⟩ 2 (by decide)).2.1
    (by decide)

/-- Claim C6: `download_spotify_url` appends a log line iff the conversion
count is positive: resolution failure, acquisition failure, and a
zero-success conversion each log nothing, while a positive count logs one
`SUCCESS` line carrying that count and the format actually used. -/
theorem C6_logging (fetchAlbum fetchTrack fetchPlaylist : String → Metadata)
    (likedMd : Metadata) (sp sf : Nat → Bool) (exits newContent : Nat → Nat)
    (disk : Disk) (fileName : FileEntry → String) (files : List FileEntry)
    (url : String) :
    (get_metadata_from_url fetchAlbum fetchTrack fetchPlaylist likedMd url = none →
      (download_spotify_url fetchAlbum fetchTrack fetchPlaylist likedMd sp sf exits
        newContent disk fileName files url).log = [])
  ∧ (∀ md, get_metadata_from_url fetchAlbum fetchTrack fetchPlaylist likedMd url = some md →
      (run_spotdl_download_with_fallback sp sf md.artist md.album).folder = none →
      (download_spotify_url fetchAlbum fetchTrack fetchPlaylist likedMd sp sf exits
        newContent disk fileName files url).log = [])
  ∧ (∀ md d, get_metadata_from_url fetchAlbum fetchTrack fetchPlaylist likedMd url = some md →
      (run_spotdl_download_with_fallback sp sf md.artist md.album).folder = some d →
      (convert_to_aac_parallel exits newContent disk fileName files md.tracks).2 = 0 →
      (download_spotify_url fetchAlbum fetchTrack fetchPlaylist likedMd sp sf exits
        newContent disk fileName files url).log = [])
  ∧ (∀ md d, get_metadata_from_url fetchAlbum fetchTrack fetchPlaylist likedMd url = some md →
      (run_spotdl_download_with_fallback sp sf md.artist md.album).folder = some d →
      0 < (convert_to_aac_parallel exits newContent disk fileName files md.tracks).2 →
      (download_spotify_url fetchAlbum fetchTrack fetchPlaylist likedMd sp sf exits
        newContent disk fileName files url).log
        = [log_download md.artist md.album
            (convert_to_aac_parallel exits newContent disk fileName files md.tracks).2
            ("AAC M4A (from "
              ++ (run_spotdl_download_with_fallback sp sf md.artist md.album).fmt ++ ")")]) := by
  refine ⟨?_, ?_, ?_, ?_⟩
  · intro h
    simp [download_spotify_url, h]
  · intro md hmd hfold
    simp [download_spotify_url, hmd, hfold]
  · intro md d hmd hfold hnum
    simp [download_spotify_url, hmd, hfold, hnum]
  · intro md d hmd hfold hnum
    simp only [download_spotify_url, hmd, hfold]
    rw [if_pos hnum]

/-- Claim C6 witness: an unrecognized URL logs nothing. -/
theorem C6_logging_witness :
    (download_spotify_url (fun _ => ⟨"a", "b", [], none⟩) (fun _ => ⟨"a", "b", [], none⟩)
      (fun _ => ⟨"a", "b", [], none⟩) ⟨"a", "b", [], none⟩ (fun _ => false) (fun _ => false)
      (fun _ => 0) (fun _ => 0) [] (fun _ => "") [] "nope").log = [] :=
  (C6_logging (fun _ => ⟨"a", "b", [], none⟩) (fun _ => ⟨"a", "b", [], none⟩)
    (fun _ => ⟨"a", "b", [], none⟩) ⟨"a", "b", [], none⟩ (fun _ => false) (fun _ => false)
    (fun _ => 0) (fun _ => 0) [] (fun _ => "") [] "nope").1 (by decide)

/-- Claim C8: a URL recognized as neither track, album, playlist nor
liked-songs resolves to the empty result, and the run then terminates with
no acquisition attempt in either format and no log entry. -/
theorem C8_unrecognized_url (fetchAlbum fetchTrack fetchPlaylist : String → Metadata)
    (likedMd : Metadata) (sp sf : Nat → Bool) (exits newContent : Nat → Nat)
    (disk : Disk) (fileName : FileEntry → String) (files : List FileEntry)
    (url : String) (h : extract_spotify_id_and_type url = none) :
    get_metadata_from_url fetchAlbum fetchTrack fetchPlaylist likedMd url = none
  ∧ (download_spotify_url fetchAlbum fetchTrack fetchPlaylist likedMd sp sf exits
      newContent disk fileName files url).log = []
  ∧ (download_spotify_url fetchAlbum fetchTrack fetchPlaylist likedMd sp sf exits
      newContent disk fileName files url).prefAttempts = []
  ∧ (download_spotify_url fetchAlbum fetchTrack fetchPlaylist likedMd sp sf exits
      newContent disk fileName files url).fbAttempts = [] := by
  have hmeta : get_metadata_from_url fetchAlbum fetchTrack fetchPlaylist likedMd url = none := by
    simp [get_metadata_from_url, h]
  exact ⟨hmeta, by simp [download_spotify_url, hmeta],
    by simp [download_spotify_url, hmeta], by simp [download_spotify_url, hmeta]⟩

/-- Claim C8 witness: an ordinary web URL is not recognized. -/
theorem C8_unrecognized_url_witness :
    get_metadata_from_url (fun _ => ⟨"x", "y", [], none⟩) (fun _ => ⟨"x", "y", [], none⟩)
      (fun _ => ⟨"x", "y", [], none⟩) ⟨"x", "y", [], none⟩ "https://example.com/foo" = none :=
  (C8_unrecognized_url (fun _ => ⟨"x", "y", [], none⟩) (fun _ => ⟨"x", "y", [], none⟩)
    (fun _ => ⟨"x", "y", [], none⟩) ⟨"x", "y", [], none⟩ (fun _ => false) (fun _ => false)
    (fun _ => 0) (fun _ => 0) [] (fun _ => "") [] "https://example.com/foo" (by decide)).1

/-- Length of `Nat.toDigitsCore` in base 10: one character per decimal
digit, given enough fuel. -/
theorem toDigitsCore_digits_len :
    ∀ (fuel n : Nat) (ds : List Char), n ≠ 0 → n < fuel →
      (Nat.toDigitsCore 10 fuel n ds).length = (Nat.digits 10 n).length + ds.length := by
  intro fuel
  induction fuel with
  | zero => intro n ds _ hlt; omega
  | succ f ih =>
    intro n ds hn hlt
    have hdig : Nat.digits 10 n = n % 10 :: Nat.digits 10 (n / 10) :=
      Nat.digits_def' (by norm_num) (Nat.pos_of_ne_zero hn)
    by_cases h10 : n / 10 = 0
    · simp only [Nat.toDigitsCore, h10, if_pos, List.length_cons, hdig, Nat.digits_zero,
        List.length_nil]
      omega
    · have hdiv : n / 10 < n := Nat.div_lt_self (Nat.pos_of_ne_zero hn) (by norm_num)
      have hfuel : n / 10 < f := by omega
      have hih := ih (n / 10) (Nat.digitChar (n % 10) :: ds) h10 hfuel
      simp only [Nat.toDigitsCore, h10, ite_false, if_false, eq_self_iff_true]
      rw [hih, hdig]
      simp only [List.length_cons]
      omega

/-- The decimal string of a positive number has exactly as many characters
as the number has decimal digits. -/
theorem repr_length_eq_digits_len (n : Nat) (hn : n ≠ 0) :
    (Nat.repr n).toList.length = (Nat.digits 10 n).length := by
  have h := toDigitsCore_digits_len (n + 1) n [] hn (Nat.lt_succ_self n)
  simpa using h

/-- Claim C7: for a non-empty track list, the zero-padding width
`len(str(len(track_list)))` equals the number of decimal digits of the
list length (9 gives 1, 10 gives 2), and each output file name is the
zero-padded position, the separator, the sanitized title, and the `.m4a`
extension. -/
theorem C7_padding (track_list : List Track) (t : Track) (h : track_list ≠ []) :
    pad_digits track_list = (Nat.digits 10 track_list.length).length
  ∧ (track_list.length = 9 → pad_digits track_list = 1)
  ∧ (track_list.length = 10 → pad_digits track_list = 2)
  ∧ output_file_name t (pad_digits track_list)
      = zfill (Nat.repr t.number) (pad_digits track_list) ++ " - "
          ++ sanitize_filename t.title ++ ".m4a" := by
  have hn : track_list.length ≠ 0 := fun h0 => h (List.length_eq_zero.mp h0)
  refine ⟨repr_length_eq_digits_len track_list.length hn, ?_, ?_, rfl⟩
  · intro h9
    rw [pad_digits, h9]
    rfl
  · intro h10
    rw [pad_digits, h10]
    rfl

/-- Claim C7 witness: a singleton track list has padding width 1. -/
theorem C7_padding_witness :
    pad_digits [⟨1, "t", "a", "b"⟩] = (Nat.digits 10 ([⟨1, "t", "a", "b"⟩] : List Track).length).length :=
  (C7_padding [⟨1, "t", "a", "b"⟩] ⟨1, "t", "a", "b"⟩ (by simp)).1

/-- Folding single-character replacements is the pointwise application of
all of them. -/
theorem foldl_replace_char (rep : List Char) :
    ∀ cs : List Char,
      rep.foldl (fun acc c => replace_char c acc) cs
        = cs.map fun x => rep.foldl (fun y c => if y = c then '_' else y) x := by
  induction rep with
  | nil => intro cs; simp
  | cons r rs ih =>
    intro cs
    simp only [List.foldl_cons]
    rw [ih (replace_char r cs), replace_char, List.map_map]
    rfl

/-- A character in the invalid set is rewritten to `'_'`. -/
theorem charAfter_mem_invalid (x : Char) (hx : x ∈ invalid_chars) :
    invalid_chars.foldl (fun y c => if y = c then '_' else y) x = '_' := by
  fin_cases hx <;> decide

/-- A character outside the invalid set is left unchanged. -/
theorem charAfter_not_mem_invalid (x : Char) (hx : x ∉ invalid_chars) :
    invalid_chars.foldl (fun y c => if y = c then '_' else y) x = x := by
  simp only [invalid_chars, List.mem_cons, List.not_mem_nil, or_false, not_or] at hx
  obtain ⟨h1, h2, h3, h4, h5, h6, h7, h8, h9⟩ := hx
  simp only [invalid_chars, List.foldl_cons, List.foldl_nil, if_neg h1, if_neg h2, if_neg h3,
    if_neg h4, if_neg h5, if_neg h6, if_neg h7, if_neg h8, if_neg h9]

/-- After the replacement loop no invalid character remains. -/
theorem mem_replace_invalid (c : Char) (cs : List Char) (hc : c ∈ replace_invalid cs) :
    c ∉ invalid_chars := by
  rw [replace_invalid, foldl_replace_char] at hc
  obtain ⟨x, _, rfl⟩ := List.mem_map.mp hc
  by_cases hm : x ∈ invalid_chars
  · rw [charAfter_mem_invalid x hm]
    decide
  · rw [charAfter_not_mem_invalid x hm]
    exact hm

/-- Stripping only removes characters. -/
theorem mem_py_strip (c : Char) (cs : List Char) (h : c ∈ py_strip_dot_space cs) : c ∈ cs := by
  rw [py_strip_dot_space, List.mem_reverse] at h
  have h2 := List.dropWhile_subset isStripChar h
  rw [List.mem_reverse] at h2
  exact List.dropWhile_subset isStripChar h2

/-- The head survives removing a suffix by right-stripping. -/
theorem head?_rightStrip (p : Char → Bool) (l : List Char) (c : Char)
    (h : ((l.reverse.dropWhile p).reverse).head? = some c) : l.head? = some c := by
  rw [List.dropWhile_eq_drop_findIdx_not, List.drop_reverse, List.reverse_reverse,
    List.head?_take] at h
  split at h
  · exact absurd h (by simp)
  · exact h

/-- A head surviving `dropWhile` falsifies the predicate. -/
theorem head?_dropWhile_false (p : Char → Bool) (l : List Char) (c : Char)
    (h : (l.dropWhile p).head? = some c) : p c = false := by
  have h2 := List.head?_dropWhile_not p l
  rw [h] at h2
  exact h2

/-- The head of the fully stripped list is not a strip character. -/
theorem head?_py_strip (cs : List Char) (c : Char)
    (h : (py_strip_dot_space cs).head? = some c) : isStripChar c = false := by
  rw [py_strip_dot_space] at h
  exact head?_dropWhile_false isStripChar cs c (head?_rightStrip isStripChar _ c h)

set_option maxRecDepth 30000 in
/-- Claim C10 (counterexample to the corrected part): truncation to 200
characters happens *after* stripping, so an input of 199 `'a'`s followed
by `".b"` — which has no leading or trailing strippable character —
sanitizes to a 200-character string ending in a dot. -/
theorem C10_counterexample :
    (sanitize_filename (String.mk (List.replicate 199 'a' ++ ['.', 'b']))).toList.getLast?
        = some '.'
      ∧ (sanitize_filename (String.mk (List.replicate 199 'a' ++ ['.', 'b']))).toList.length
        = 200 := by
  decide

/-- Claim C10 (amended): `sanitize_filename` output contains none of the
characters `<>:"/\\|?*`, has at most 200 characters, and never *begins*
with a dot or a space; but since truncation follows stripping it may
*end* with a dot or a space. -/
theorem C10_sanitize_amended (s : String) :
    (∀ c ∈ (sanitize_filename s).toList, c ∉ invalid_chars)
  ∧ (sanitize_filename s).toList.length ≤ 200
  ∧ (∀ c, (sanitize_filename s).toList.head? = some c → isStripChar c = false) := by
  refine ⟨?_, ?_, ?_⟩
  · intro c hc
    have h1 : c ∈ py_strip_dot_space (replace_invalid s.toList) :=
      List.mem_of_mem_take (by simpa [sanitize_filename] using hc)
    exact mem_replace_invalid c s.toList (mem_py_strip c _ h1)
  · show (List.take 200 (py_strip_dot_space (replace_invalid s.toList))).length ≤ 200
    rw [List.length_take]
    exact Nat.min_le_left 200 _
  · intro c hc
    have hc2 : (List.take 200 (py_strip_dot_space (replace_invalid s.toList))).head?
        = some c := hc
    rw [List.head?_take, if_neg (by norm_num)] at hc2
    exact head?_py_strip _ c hc2

/-- Claim C10 witness: a concrete instantiation of the amended theorem. -/
theorem C10_sanitize_amended_witness :
    (sanitize_filename "a.b").toList.length ≤ 200 :=
  (C10_sanitize_amended "a.b").2.1
